import Mathlib

/-!
Shallow embedding of `src/news_digest.py` (business-news-digest).

The script fetches RSS feeds, collects headline items (deduplicated by
link, with a 24-hour recency filter and a per-feed fallback), renders
them into a text block, sends that block to an LLM endpoint, and emails
the result.

Modelling conventions:
* `parse : String → Feed` stands for `feedparser.parse`: the network and
  XML parsing are external, so the mapping from feed URL to parsed feed
  is a parameter.
* Timestamps (`published_parsed` / `updated_parsed` after
  `time.mktime`) are epoch seconds as `Int`; `none` models an absent or
  falsy field, exactly the cases the Python truthiness test rejects.
  The current IST time `datetime.now(IST)` is the parameter `now`, and
  `timedelta(hours=24)` is 86400 seconds.
* `os.environ` is `env : String → Option String`.
* The LLM call (`client.responses.create` followed by reading
  `output_text`) is `llm : String → String`.
* A raised Python exception is `Except.error`.
-/

/-- Configured per-feed cap (src line 52). -/
def MAX_ITEMS_PER_FEED : Nat := 15

/-- The configured feed URL list (src lines 19-50). -/
def RSS_FEEDS : List String :=
  [ "https://www.livemint.com/rss/news",
    "https://www.livemint.com/rss/companies",
    "https://www.livemint.com/rss/markets",
    "https://www.livemint.com/rss/industry",
    "https://www.livemint.com/rss/money",
    "https://www.business-standard.com/rss/latest.rss",
    "https://economictimes.indiatimes.com/rssfeedsdefault.cms",
    "http://feeds.hindustantimes.com/HT-Business?format=xml",
    "https://indianexpress.com/section/business/feed/",
    "https://news.google.com/rss/search?q=jewellery+OR+gold+OR+gems+OR+diamond+retail&hl=en-IN&gl=IN&ceid=IN:en",
    "https://indianexpress.com/section/business/market/feed/",
    "https://economictimes.indiatimes.com/rssfeeds/1373380680.cms",
    "https://news.google.com/rss/search?q=site:moneycontrol.com+markets&hl=en-IN&gl=IN&ceid=IN:en" ]

/-- One raw feedparser entry: the fields `fetch_news` and `is_recent`
read.  A `none` models a field that is absent or falsy (empty string /
`None` struct), which is exactly what `entry.get(...) or ""` and the
`hasattr(...) and entry.x` truthiness tests collapse together.  The
`summary` field is carried because feed entries have one, even though
this version of `fetch_news` never reads it. -/
structure RawEntry where
  title : Option String
  link : Option String
  summary : Option String
  published_parsed : Option Int
  updated_parsed : Option Int
deriving DecidableEq

/-- A parsed feed: `feed.feed.title` (optional) and `feed.entries`. -/
structure Feed where
  title : Option String
  entries : List RawEntry
deriving DecidableEq

/-- One collected item, as built at src lines 126-133: the dict
`\x7bid, source, title, link\x7d`.  Note there is no summary field. -/
structure NewsItem where
  id : Nat
  source : String
  title : String
  link : String
deriving DecidableEq

/-- `is_recent` (src lines 60-74): prefer `published_parsed`, else
`updated_parsed`; with no usable timestamp return `False`; otherwise
the entry is recent when `now - dt <= timedelta(hours=24)`. -/
def is_recent (now : Int) (entry : RawEntry) : Bool :=
  match entry.published_parsed with
  | some t => decide (now - t ≤ 86400)
  | none =>
    match entry.updated_parsed with
    | some t => decide (now - t ≤ 86400)
    | none => false

/-- The loop state of `fetch_news` (src lines 92-94): the accumulated
`items`, the `seen_links` set (modelled as the list of links in
insertion-reversed order; only membership is ever queried), and the
next id `idx`. -/
structure FetchState where
  items : List NewsItem
  seen_links : List String
  idx : Nat
deriving DecidableEq

/-- Python `str.strip()`: drop leading and trailing whitespace.
Implemented by structural recursion over the character list so that it
evaluates inside the kernel (`String.trim` of the Lean library computes
the same result but is defined by well-founded recursion). -/
def pyStrip (s : String) : String :=
  String.mk (((s.data.dropWhile Char.isWhitespace).reverse.dropWhile
    Char.isWhitespace).reverse)

/-- The body of the inner entry loop of `fetch_news` (src lines
115-135): strip title and link, skip the entry when either is empty,
skip it when the link was already seen, otherwise append the new item
and record the link. -/
def processEntry (feed_title : String) (st : FetchState) (entry : RawEntry) : FetchState :=
  let title := pyStrip (entry.title.getD "")
  let link := pyStrip (entry.link.getD "")
  if title = "" ∨ link = "" then st
  else if link ∈ st.seen_links then st
  else
    { items := st.items ++ [{ id := st.idx, source := feed_title, title := title, link := link }]
      seen_links := link :: st.seen_links
      idx := st.idx + 1 }

/-- Per-feed entry selection (src lines 101-112): cap the entries at
`MAX_ITEMS_PER_FEED`, keep only the recent ones, and fall back to the
capped entries when no entry is recent. -/
def usedEntries (now : Int) (feed : Feed) : List RawEntry :=
  let entries := feed.entries.take MAX_ITEMS_PER_FEED
  let recent_entries := entries.filter (is_recent now)
  if recent_entries.isEmpty then entries else recent_entries

/-- The body of the outer feed loop of `fetch_news` (src lines 96-137)
for one feed URL. -/
def processFeed (parse : String → Feed) (now : Int) (st : FetchState) (feed_url : String) :
    FetchState :=
  let feed := parse feed_url
  let feed_title := feed.title.getD feed_url
  (usedEntries now feed).foldl (processEntry feed_title) st

/-- `fetch_news` (src lines 81-140). -/
def fetch_news (parse : String → Feed) (now : Int) : List NewsItem :=
  (RSS_FEEDS.foldl (processFeed parse now) { items := [], seen_links := [], idx := 1 }).items

/-- The four lines appended for one item by `build_headlines_text`
(src lines 152-156). -/
def itemLines (item : NewsItem) : List String :=
  [ toString item.id ++ ") [Source: " ++ item.source ++ "]",
    "   Title: " ++ item.title,
    "   Link: " ++ item.link,
    "" ]

/-- Python `"\n".join(lines)`. -/
def joinNL : List String → String
  | [] => ""
  | [line] => line
  | line :: rest => line ++ "\n" ++ joinNL rest

/-- `build_headlines_text` (src lines 143-159): accumulate the
per-item lines in order, then join them with newlines.  No length cap
of any kind is applied. -/
def build_headlines_text (items : List NewsItem) : String :=
  joinNL (items.foldl (fun lines item => lines ++ itemLines item) [])

/-- The instruction prompt of `ask_ai_for_digest` (src lines 181-431):
a fixed editorial preamble, the interpolated headlines block, and a
long fixed block of newsroom instructions.  The literal instruction
prose influences no control flow and is abbreviated to its skeleton;
what matters is that the prompt is a fixed function of
`headlines_text`. -/
def digestPrompt (headlines_text : String) : String :=
  "\nYou are an expert business journalist and senior newsroom editor." ++
  "\n\nINPUT ITEMS:\n" ++ headlines_text ++
  "\n\nSTEP 0 - PROFESSIONAL NEWSROOM FILTER ... End of instructions.\n"

/-- `ask_ai_for_digest` (src lines 166-440): raise `RuntimeError` when
`OPENAI_API_KEY` is not in the environment — this check precedes the
client construction and the network call, so in the error case the
`llm` function is never applied — otherwise send the prompt and return
the stripped output text. -/
def ask_ai_for_digest (env : String → Option String) (llm : String → String)
    (headlines_text : String) : Except String String :=
  if env "OPENAI_API_KEY" = none then
    Except.error "OPENAI_API_KEY environment variable is not set"
  else
    Except.ok (pyStrip (llm (digestPrompt headlines_text)))

/-- The message handed to the SMTP session by `send_email`. -/
structure EmailMessage where
  email_from : String
  email_to : String
  subject : String
  html : String
deriving DecidableEq

/-- The HTML wrapper of `send_email` (src lines 459-488): a fixed
template with the timestamp and the digest interpolated; the styling
boilerplate around the two holes is abbreviated. -/
def emailHtml (now_ist digest_html : String) : String :=
  "<html><body><h1>📊 Business News Digest – Clustered Headlines</h1>" ++
  "<p>Generated automatically on <b>" ++ now_ist ++ "</b></p><div>" ++
  digest_html ++ "</div></body></html>"

/-- `send_email` (src lines 449-501): read the SMTP configuration from
the environment (`os.environ[...]` raises `KeyError`, modelled as
`Except.error`, when a required variable is absent; `SMTP_PORT` has a
default and cannot fail this way), build the HTML message and hand it
to the SMTP session.  The SMTP transaction itself is an external
boundary; the message that would be sent is returned. -/
def send_email (env : String → Option String) (now_ist subject digest_html : String) :
    Except String EmailMessage :=
  match env "EMAIL_FROM", env "EMAIL_TO", env "SMTP_SERVER",
        env "SMTP_USERNAME", env "SMTP_PASSWORD" with
  | some email_from, some email_to, some _, some _, some _ =>
      Except.ok { email_from := email_from, email_to := email_to,
                  subject := subject, html := emailHtml now_ist digest_html }
  | _, _, _, _, _ => Except.error "KeyError"

/-- `main` (src lines 508-520): fetch, branch on emptiness (the empty
case uses the fixed placeholder and never calls the LLM), then email
the digest.  `now_str` models the `strftime` rendering of the current
IST time; `Except.error` models an unhandled exception (non-zero
exit), `Except.ok` a completed run (exit code 0). -/
def main_run (parse : String → Feed) (now : Int) (now_str : String)
    (env : String → Option String) (llm : String → String) : Except String EmailMessage :=
  let news_items := fetch_news parse now
  match (if news_items.isEmpty then Except.ok "<p>No headlines found from RSS feeds.</p>"
         else ask_ai_for_digest env llm (build_headlines_text news_items)) with
  | Except.error e => Except.error e
  | Except.ok digest_html =>
      send_email env now_str ("Business News Digest – " ++ now_str) digest_html

/-! Specification-side helper definitions used by the theorems: the
flattened processed entry stream, its validated projection, and a
first-occurrence deduplication function, against which the fold inside
`fetch_news` is characterised. -/

/-- The validation step of the inner loop as a partial projection:
`some (source, trimmed title, trimmed link)` for an entry that passes
the emptiness checks, `none` for one that is skipped. -/
def entryVal (feed_title : String) (entry : RawEntry) : Option (String × String × String) :=
  let title := pyStrip (entry.title.getD "")
  let link := pyStrip (entry.link.getD "")
  if title = "" ∨ link = "" then none else some (feed_title, title, link)

/-- All (feed title, entry) pairs `fetch_news` iterates over, in
feed-then-entry order, after per-feed capping and recency fallback. -/
def entryStream (parse : String → Feed) (now : Int) : List (String × RawEntry) :=
  RSS_FEEDS.flatMap (fun feed_url =>
    let feed := parse feed_url
    (usedEntries now feed).map (fun e => (feed.title.getD feed_url, e)))

/-- The validated stream: source, trimmed title and trimmed link of
every entry that survives the emptiness checks, in iteration order. -/
def validStream (parse : String → Feed) (now : Int) : List (String × String × String) :=
  (entryStream parse now).filterMap (fun p => entryVal p.1 p.2)

/-- Keep the first occurrence of each link (third component), given an
initial set of already-seen links. -/
def dedupFirst : List (String × String × String) → List String → List (String × String × String)
  | [], _ => []
  | v :: rest, seen =>
    if v.2.2 ∈ seen then dedupFirst rest seen
    else v :: dedupFirst rest (v.2.2 :: seen)

/-- Assign consecutive ids starting at `i`. -/
def numberFrom (i : Nat) : List (String × String × String) → List NewsItem
  | [] => []
  | (s, t, l) :: rest => { id := i, source := s, title := t, link := l } :: numberFrom (i + 1) rest

/-- Erase the summary of an entry. -/
def RawEntry.dropSummary (e : RawEntry) : RawEntry :=
  { e with summary := none }

/-- Erase every summary in a feed. -/
def Feed.dropSummaries (f : Feed) : Feed :=
  { f with entries := f.entries.map RawEntry.dropSummary }

/-- The timestamp `is_recent` bases its decision on: `published_parsed`
when present, otherwise `updated_parsed`. -/
def entryTimestamp (e : RawEntry) : Option Int :=
  match e.published_parsed with
  | some t => some t
  | none => e.updated_parsed

/-! Concrete inputs used to evaluate the definitions on closed runs. -/

/-- A feed that failed to parse or has no entries. -/
def emptyFeed : Feed :=
  { title := none, entries := [] }

/-- A parse result where every feed is empty. -/
def parseEmpty : String → Feed := fun _ => emptyFeed

/-- An entry with the given title and link and no other data. -/
def mkEntry (t l : String) : RawEntry :=
  { title := some t, link := some l, summary := none,
    published_parsed := none, updated_parsed := none }

/-- A run where the first feed has an untrimmed entry followed by a
second entry with the same link. -/
def parseW : String → Feed := fun u =>
  if u = "https://www.livemint.com/rss/news" then
    { title := some "Livemint",
      entries := [mkEntry " Rates rise " " https://x/a ", mkEntry "Dup" "https://x/a"] }
  else emptyFeed

/-- Fifteen distinct valid entries. -/
def feedA : Feed :=
  { title := some "Feed A",
    entries := (List.range 15).map (fun k =>
      mkEntry ("story a" ++ toString k) ("https://a/" ++ toString k)) }

/-- Six more distinct valid entries. -/
def feedB : Feed :=
  { title := some "Feed B",
    entries := (List.range 6).map (fun k =>
      mkEntry ("story b" ++ toString k) ("https://b/" ++ toString k)) }

/-- A run with 21 valid distinct entries across the first two feeds. -/
def parseC3 : String → Feed := fun u =>
  if u = "https://www.livemint.com/rss/news" then feedA
  else if u = "https://www.livemint.com/rss/companies" then feedB
  else emptyFeed

/-- An entry published at epoch second 0. -/
def staleEntry : RawEntry :=
  { title := some "Old", link := some "https://old/1", summary := none,
    published_parsed := some 0, updated_parsed := none }

/-- A feed whose only entry is stale. -/
def feedStale : Feed :=
  { title := some "Stale", entries := [staleEntry] }

/-- A 700-character summary, longer than any truncation budget the
spec mentions. -/
def longSummary : String := String.mk (List.replicate 700 'x')

/-- A run whose only entry carries the long summary. -/
def parseJLong : String → Feed := fun u =>
  if u = "https://www.livemint.com/rss/news" then
    { title := some "Jewel",
      entries := [{ title := some "Gold up", link := some "https://j/1",
                    summary := some longSummary,
                    published_parsed := none, updated_parsed := none }] }
  else emptyFeed

/-- The same run with the summary absent. -/
def parseJNone : String → Feed := fun u =>
  if u = "https://www.livemint.com/rss/news" then
    { title := some "Jewel",
      entries := [{ title := some "Gold up", link := some "https://j/1",
                    summary := none,
                    published_parsed := none, updated_parsed := none }] }
  else emptyFeed

/-- An environment with no variables at all. -/
def envNoKey : String → Option String := fun _ => none

/-- An environment with the SMTP variables but no `OPENAI_API_KEY`. -/
def envSmtp : String → Option String := fun k =>
  if k = "EMAIL_FROM" then some "from@example.com"
  else if k = "EMAIL_TO" then some "to@example.com"
  else if k = "SMTP_SERVER" then some "smtp.example.com"
  else if k = "SMTP_USERNAME" then some "user"
  else if k = "SMTP_PASSWORD" then some "pw"
  else none

/-- One possible LLM behaviour. -/
def llmA : String → String := fun _ => "<p>digest A</p>"

/-- A different LLM behaviour, to witness independence from the
network call. -/
def llmB : String → String := fun _ => "<p>digest B</p>"

/-! Bridge lemmas: the state fold inside `fetch_news` is exactly
"number, from the running index, the first-occurrence deduplication of
the validated stream". -/

/-- The inner loop body applied to a (feed title, entry) pair. -/
def processPair (st : FetchState) (p : String × RawEntry) : FetchState :=
  processEntry p.1 st p.2

theorem foldl_processPair_spec (ps : List (String × RawEntry)) :
    ∀ st : FetchState,
      ps.foldl processPair st =
        { items := st.items ++
            numberFrom st.idx
              (dedupFirst (ps.filterMap (fun p => entryVal p.1 p.2)) st.seen_links),
          seen_links :=
            (dedupFirst (ps.filterMap (fun p => entryVal p.1 p.2)) st.seen_links).foldl
              (fun s v => v.2.2 :: s) st.seen_links,
          idx := st.idx +
            (dedupFirst (ps.filterMap (fun p => entryVal p.1 p.2)) st.seen_links).length } := by
  induction ps with
  | nil => intro st; simp [dedupFirst, numberFrom]
  | cons p ps ih =>
    intro st
    rw [List.foldl_cons]
    by_cases hv : (pyStrip (p.2.title.getD "") = "" ∨ pyStrip (p.2.link.getD "") = "")
    · have hstep : processPair st p = st := by
        simp [processPair, processEntry, hv]
      have hval : entryVal p.1 p.2 = none := by
        simp [entryVal, hv]
      rw [hstep, ih st]
      simp [hval]
    · have hval : entryVal p.1 p.2 =
          some (p.1, pyStrip (p.2.title.getD ""), pyStrip (p.2.link.getD "")) := by
        simp [entryVal, hv]
      by_cases hl : pyStrip (p.2.link.getD "") ∈ st.seen_links
      · have hstep : processPair st p = st := by
          push_neg at hv
          simp [processPair, processEntry, hv.1, hv.2, hl]
        rw [hstep, ih st]
        simp [hval, dedupFirst, hl]
      · have hstep : processPair st p =
            { items := st.items ++
                [{ id := st.idx, source := p.1,
                   title := pyStrip (p.2.title.getD ""), link := pyStrip (p.2.link.getD "") }],
              seen_links := pyStrip (p.2.link.getD "") :: st.seen_links,
              idx := st.idx + 1 } := by
          push_neg at hv
          simp [processPair, processEntry, hv.1, hv.2, hl]
        rw [hstep, ih]
        simp only [hval, List.filterMap_cons]
        simp [dedupFirst, hl, numberFrom, Nat.add_comm, Nat.add_assoc, Nat.add_left_comm]

theorem feeds_foldl_eq_stream (parse : String → Feed) (now : Int) :
    ∀ (urls : List String) (st : FetchState),
      urls.foldl (processFeed parse now) st =
        (urls.flatMap (fun u =>
          (usedEntries now (parse u)).map (fun e => ((parse u).title.getD u, e)))).foldl
          processPair st := by
  intro urls
  induction urls with
  | nil => intro st; rfl
  | cons u urls ih =>
    intro st
    rw [List.flatMap_cons, List.foldl_append, List.foldl_cons, ih]
    congr 1
    simp [processFeed, List.foldl_map, processPair]

theorem fetch_news_eq_numberFrom (parse : String → Feed) (now : Int) :
    fetch_news parse now = numberFrom 1 (dedupFirst (validStream parse now) []) := by
  unfold fetch_news validStream entryStream
  rw [feeds_foldl_eq_stream, foldl_processPair_spec]
  simp

theorem dedupFirst_sublist :
    ∀ (l : List (String × String × String)) (seen : List String),
      (dedupFirst l seen).Sublist l := by
  intro l
  induction l with
  | nil => intro seen; simp [dedupFirst]
  | cons v l ih =>
    intro seen
    by_cases h : v.2.2 ∈ seen
    · simp only [dedupFirst, if_pos h]
      exact (ih seen).cons v
    · simp only [dedupFirst, if_neg h]
      exact (ih (v.2.2 :: seen)).cons₂ v

theorem mem_dedupFirst :
    ∀ (l : List (String × String × String)) (seen : List String)
      (v : String × String × String), v ∈ dedupFirst l seen →
      v.2.2 ∉ seen ∧ l.find? (fun w => w.2.2 == v.2.2) = some v := by
  intro l
  induction l with
  | nil => intro seen v hv; simp [dedupFirst] at hv
  | cons x l ih =>
    intro seen v hv
    by_cases h : x.2.2 ∈ seen
    · simp only [dedupFirst, if_pos h] at hv
      obtain ⟨hns, hfind⟩ := ih seen v hv
      have hne : ¬(x.2.2 == v.2.2) = true := by
        simp only [beq_iff_eq]
        intro hx
        exact hns (hx ▸ h)
      have hcons : List.find? (fun w => w.2.2 == v.2.2) (x :: l) =
          List.find? (fun w => w.2.2 == v.2.2) l :=
        List.find?_cons_of_neg l hne
      exact ⟨hns, by rw [hcons, hfind]⟩
    · simp only [dedupFirst, if_neg h, List.mem_cons] at hv
      cases hv with
      | inl hx =>
        subst hx
        refine ⟨h, ?_⟩
        rw [List.find?_cons_of_pos _ (by simp)]
      | inr hv =>
        obtain ⟨hns, hfind⟩ := ih (x.2.2 :: seen) v hv
        simp only [List.mem_cons, not_or] at hns
        have hne : ¬(x.2.2 == v.2.2) = true := by
          simp only [beq_iff_eq]
          intro hx
          exact hns.1 hx.symm
        have hcons : List.find? (fun w => w.2.2 == v.2.2) (x :: l) =
            List.find? (fun w => w.2.2 == v.2.2) l :=
          List.find?_cons_of_neg l hne
        exact ⟨hns.2, by rw [hcons, hfind]⟩

theorem dedupFirst_links_nodup :
    ∀ (l : List (String × String × String)) (seen : List String),
      ((dedupFirst l seen).map (fun v => v.2.2)).Nodup := by
  intro l
  induction l with
  | nil => intro seen; simp [dedupFirst]
  | cons x l ih =>
    intro seen
    by_cases h : x.2.2 ∈ seen
    · simp only [dedupFirst, if_pos h]
      exact ih seen
    · simp only [dedupFirst, if_neg h, List.map_cons, List.nodup_cons]
      refine ⟨?_, ih (x.2.2 :: seen)⟩
      intro hmem
      obtain ⟨v, hv, hlink⟩ := List.mem_map.mp hmem
      obtain ⟨hns, _⟩ := mem_dedupFirst _ _ _ hv
      exact hns (by simp [hlink])

theorem numberFrom_map_key :
    ∀ (i : Nat) (D : List (String × String × String)),
      (numberFrom i D).map (fun it => (it.source, it.title, it.link)) = D := by
  intro i D
  induction D generalizing i with
  | nil => rfl
  | cons v D ih => obtain ⟨s, t, l⟩ := v; simp [numberFrom, ih]

theorem numberFrom_map_link :
    ∀ (i : Nat) (D : List (String × String × String)),
      (numberFrom i D).map NewsItem.link = D.map (fun v => v.2.2) := by
  intro i D
  induction D generalizing i with
  | nil => rfl
  | cons v D ih => obtain ⟨s, t, l⟩ := v; simp [numberFrom, ih]

theorem numberFrom_map_id :
    ∀ (i : Nat) (D : List (String × String × String)),
      (numberFrom i D).map NewsItem.id = List.range' i D.length := by
  intro i D
  induction D generalizing i with
  | nil => rfl
  | cons v D ih => obtain ⟨s, t, l⟩ := v; simp [numberFrom, ih, List.range']

theorem numberFrom_length (i : Nat) (D : List (String × String × String)) :
    (numberFrom i D).length = D.length := by
  have := congrArg List.length (numberFrom_map_key i D)
  simpa using this

theorem mem_numberFrom (i : Nat) (D : List (String × String × String)) (it : NewsItem) :
    it ∈ numberFrom i D → (it.source, it.title, it.link) ∈ D := by
  intro h
  rw [← numberFrom_map_key i D]
  exact List.mem_map.mpr ⟨it, h, rfl⟩

theorem entryVal_some (feed_title : String) (entry : RawEntry)
    (v : String × String × String) (h : entryVal feed_title entry = some v) :
    v.1 = feed_title ∧ v.2.1 = pyStrip (entry.title.getD "") ∧
    v.2.2 = pyStrip (entry.link.getD "") ∧ v.2.1 ≠ "" ∧ v.2.2 ≠ "" := by
  by_cases hc : (pyStrip (entry.title.getD "") = "" ∨ pyStrip (entry.link.getD "") = "")
  · simp [entryVal, hc] at h
  · push_neg at hc
    simp [entryVal, hc.1, hc.2] at h
    subst h
    exact ⟨rfl, rfl, rfl, hc.1, hc.2⟩

theorem usedEntries_eq (now : Int) (feed : Feed) :
    usedEntries now feed =
      if (feed.entries.take MAX_ITEMS_PER_FEED).filter (is_recent now) = [] then
        feed.entries.take MAX_ITEMS_PER_FEED
      else (feed.entries.take MAX_ITEMS_PER_FEED).filter (is_recent now) := by
  unfold usedEntries
  by_cases h : (feed.entries.take MAX_ITEMS_PER_FEED).filter (is_recent now) = [] <;>
    simp [h]

theorem usedEntries_length_le (now : Int) (feed : Feed) :
    (usedEntries now feed).length ≤ MAX_ITEMS_PER_FEED := by
  rw [usedEntries_eq]
  split
  · exact List.length_take_le _ _
  · exact le_trans (List.length_filter_le _ _) (List.length_take_le _ _)

/-- C1: within one run of `fetch_news`, no two items of the returned
list share the same `link`: an entry whose trimmed link was already
seen is dropped, whichever feed it came from, so link uniqueness is an
invariant of the collected list. -/
theorem fetch_news_links_nodup (parse : String → Feed) (now : Int) :
    ((fetch_news parse now).map NewsItem.link).Nodup := by
  rw [fetch_news_eq_numberFrom, numberFrom_map_link]
  exact dedupFirst_links_nodup _ _

/-- C2: every item surviving `fetch_news` has a non-empty title and a
non-empty link, and both are exactly the whitespace-trimmed title and
link of one of the processed raw entries (an entry whose trimmed title
or trimmed link is empty never yields an item). -/
theorem fetch_news_fields_trimmed_nonempty (parse : String → Feed) (now : Int) :
    ∀ it ∈ fetch_news parse now,
      it.title ≠ "" ∧ it.link ≠ "" ∧
      ∃ p ∈ entryStream parse now,
        it.source = p.1 ∧ it.title = pyStrip (p.2.title.getD "") ∧
        it.link = pyStrip (p.2.link.getD "") := by
  intro it hit
  rw [fetch_news_eq_numberFrom] at hit
  have hkey := mem_numberFrom _ _ _ hit
  have hsub : (it.source, it.title, it.link) ∈ validStream parse now :=
    (dedupFirst_sublist _ _).subset hkey
  obtain ⟨p, hp, hval⟩ := List.mem_filterMap.mp hsub
  obtain ⟨h1, h2, h3, h4, h5⟩ := entryVal_some _ _ _ hval
  exact ⟨h4, h5, p, hp, h1, h2, h3⟩

theorem fetch_news_fields_trimmed_nonempty_witness :
    ({ id := 1, source := "Livemint", title := "Rates rise",
       link := "https://x/a" } : NewsItem).title ≠ "" ∧
    ({ id := 1, source := "Livemint", title := "Rates rise",
       link := "https://x/a" } : NewsItem).link ≠ "" ∧
    ∃ p ∈ entryStream parseW 0,
      ({ id := 1, source := "Livemint", title := "Rates rise",
         link := "https://x/a" } : NewsItem).source = p.1 ∧
      ({ id := 1, source := "Livemint", title := "Rates rise",
         link := "https://x/a" } : NewsItem).title = pyStrip (p.2.title.getD "") ∧
      ({ id := 1, source := "Livemint", title := "Rates rise",
         link := "https://x/a" } : NewsItem).link = pyStrip (p.2.link.getD "") :=
  fetch_news_fields_trimmed_nonempty parseW 0 _ (by decide)

/-- C10: the ids of the returned list are exactly 1, 2, ..., n in list
order; the retained (source, title, link) triples form a subsequence
of the validated feed-then-entry stream (original order preserved);
and for each retained item, scanning that stream for its link finds
precisely this item first, i.e. the first entry bearing each link is
the one retained. -/
theorem fetch_news_ids_and_first_occurrence (parse : String → Feed) (now : Int) :
    (fetch_news parse now).map NewsItem.id = List.range' 1 (fetch_news parse now).length
    ∧ ((fetch_news parse now).map (fun it => (it.source, it.title, it.link))).Sublist
        (validStream parse now)
    ∧ ∀ it ∈ fetch_news parse now,
        (validStream parse now).find? (fun v => v.2.2 == it.link) =
          some (it.source, it.title, it.link) := by
  refine ⟨?_, ?_, ?_⟩
  · rw [fetch_news_eq_numberFrom, numberFrom_map_id, numberFrom_length]
  · rw [fetch_news_eq_numberFrom, numberFrom_map_key]
    exact dedupFirst_sublist _ _
  · intro it hit
    rw [fetch_news_eq_numberFrom] at hit
    have hkey := mem_numberFrom _ _ _ hit
    obtain ⟨_, hfind⟩ := mem_dedupFirst _ _ _ hkey
    exact hfind

theorem fetch_news_ids_and_first_occurrence_witness :
    (validStream parseW 0).find?
        (fun v => v.2.2 == ({ id := 1, source := "Livemint", title := "Rates rise",
                              link := "https://x/a" } : NewsItem).link) =
      some ("Livemint", "Rates rise", "https://x/a") :=
  (fetch_news_ids_and_first_occurrence parseW 0).2.2
    { id := 1, source := "Livemint", title := "Rates rise", link := "https://x/a" }
    (by decide)

/-- C5: `is_recent` returns `True` exactly when the entry carries a
usable timestamp — `published_parsed` when present, otherwise
`updated_parsed` — whose age relative to `now` is at most 24 hours
(86400 seconds); with neither field present it returns `False`. -/
theorem is_recent_iff (now : Int) (e : RawEntry) :
    is_recent now e = true ↔ ∃ t, entryTimestamp e = some t ∧ now - t ≤ 86400 := by
  cases hp : e.published_parsed with
  | some t => simp [is_recent, entryTimestamp, hp]
  | none =>
    cases hu : e.updated_parsed with
    | some t => simp [is_recent, entryTimestamp, hp, hu]
    | none => simp [is_recent, entryTimestamp, hp, hu]

/-- C4: per feed, when at least one capped entry is recent, exactly the
recent subset is used; when none is recent, the unfiltered capped
entries are used instead; hence a feed with entries but none recent
still contributes a non-empty used list. -/
theorem usedEntries_fallback (now : Int) (feed : Feed) :
    ((feed.entries.take MAX_ITEMS_PER_FEED).filter (is_recent now) ≠ [] →
      usedEntries now feed = (feed.entries.take MAX_ITEMS_PER_FEED).filter (is_recent now))
    ∧ ((feed.entries.take MAX_ITEMS_PER_FEED).filter (is_recent now) = [] →
      usedEntries now feed = feed.entries.take MAX_ITEMS_PER_FEED)
    ∧ (feed.entries ≠ [] → usedEntries now feed ≠ []) := by
  refine ⟨fun hne => ?_, fun heq => ?_, fun hentries => ?_⟩
  · rw [usedEntries_eq, if_neg hne]
  · rw [usedEntries_eq, if_pos heq]
  · rw [usedEntries_eq]
    split
    · intro htake
      rcases List.take_eq_nil_iff.mp htake with hk | hl
      · exact absurd hk (by decide)
      · exact hentries hl
    · next hne => exact hne

theorem usedEntries_fallback_witness :
    usedEntries 1000000 feedStale = feedStale.entries.take MAX_ITEMS_PER_FEED ∧
    usedEntries 1000000 feedStale ≠ [] :=
  ⟨(usedEntries_fallback 1000000 feedStale).2.1 (by decide),
   (usedEntries_fallback 1000000 feedStale).2.2 (by decide)⟩

/-- C6: with `OPENAI_API_KEY` absent from the environment,
`ask_ai_for_digest` raises the configuration error, and the outcome is
the same for every possible network behaviour — the LLM endpoint is
never consulted before the error. -/
theorem ask_ai_missing_key (env : String → Option String) (llm llm2 : String → String)
    (headlines_text : String) (h : env "OPENAI_API_KEY" = none) :
    ask_ai_for_digest env llm headlines_text =
      Except.error "OPENAI_API_KEY environment variable is not set"
    ∧ ask_ai_for_digest env llm headlines_text = ask_ai_for_digest env llm2 headlines_text := by
  constructor <;> simp [ask_ai_for_digest, h]

theorem ask_ai_missing_key_witness :
    ask_ai_for_digest envNoKey llmA "1) [Source: X]" =
      Except.error "OPENAI_API_KEY environment variable is not set"
    ∧ ask_ai_for_digest envNoKey llmA "1) [Source: X]" =
      ask_ai_for_digest envNoKey llmB "1) [Source: X]" :=
  ask_ai_missing_key envNoKey llmA llmB "1) [Source: X]" rfl

/-- C7: when `fetch_news` returns no items, `main` emails the fixed
placeholder digest, the outcome is identical for every LLM behaviour
(the LLM is never called), and the run completes normally. -/
theorem main_run_empty_placeholder (parse : String → Feed) (now : Int) (now_str : String)
    (env : String → Option String) (llm llm2 : String → String)
    (ef et ss su sp : String)
    (h0 : fetch_news parse now = [])
    (h1 : env "EMAIL_FROM" = some ef) (h2 : env "EMAIL_TO" = some et)
    (h3 : env "SMTP_SERVER" = some ss) (h4 : env "SMTP_USERNAME" = some su)
    (h5 : env "SMTP_PASSWORD" = some sp) :
    main_run parse now now_str env llm =
      Except.ok { email_from := ef, email_to := et,
                  subject := "Business News Digest – " ++ now_str,
                  html := emailHtml now_str "<p>No headlines found from RSS feeds.</p>" }
    ∧ main_run parse now now_str env llm = main_run parse now now_str env llm2 := by
  have hmain : ∀ l : String → String,
      main_run parse now now_str env l =
        Except.ok { email_from := ef, email_to := et,
                    subject := "Business News Digest – " ++ now_str,
                    html := emailHtml now_str "<p>No headlines found from RSS feeds.</p>" } := by
    intro l
    simp [main_run, h0, send_email, h1, h2, h3, h4, h5]
  exact ⟨hmain llm, (hmain llm).trans (hmain llm2).symm⟩

theorem main_run_empty_placeholder_witness :
    main_run parseEmpty 0 "2026-10-12 09:00 AM IST" envSmtp llmA =
      Except.ok { email_from := "from@example.com", email_to := "to@example.com",
                  subject := "Business News Digest – " ++ "2026-10-12 09:00 AM IST",
                  html := emailHtml "2026-10-12 09:00 AM IST"
                    "<p>No headlines found from RSS feeds.</p>" }
    ∧ main_run parseEmpty 0 "2026-10-12 09:00 AM IST" envSmtp llmA =
      main_run parseEmpty 0 "2026-10-12 09:00 AM IST" envSmtp llmB :=
  main_run_empty_placeholder parseEmpty 0 "2026-10-12 09:00 AM IST" envSmtp llmA llmB
    "from@example.com" "to@example.com" "smtp.example.com" "user" "pw"
    (by decide) rfl rfl rfl rfl rfl

/-- C3 counterexample: a run in which `fetch_news` returns 21 items,
exceeding 20 (the lower end of the cap range the claim describes), so
collection does not stop once 20 items have been gathered — the 21st
item comes from a later feed that was still fully processed. -/
theorem fetch_news_exceeds_twenty :
    20 < (fetch_news parseC3 0).length ∧ (fetch_news parseC3 0).length = 21 := by
  constructor <;> decide

/-- C3 amended: this version has no configured global maximum and
never stops early; the only size control is the per-feed cap, so the
total is bounded by `MAX_ITEMS_PER_FEED` items per configured feed,
i.e. 13 * 15 = 195. -/
theorem fetch_news_total_bound (parse : String → Feed) (now : Int) :
    (fetch_news parse now).length ≤ RSS_FEEDS.length * MAX_ITEMS_PER_FEED := by
  rw [fetch_news_eq_numberFrom, numberFrom_length]
  refine le_trans (dedupFirst_sublist _ _).length_le ?_
  refine le_trans (List.length_filterMap_le _ _) ?_
  unfold entryStream
  have hgen : ∀ urls : List String,
      (urls.flatMap (fun u =>
        (usedEntries now (parse u)).map (fun e => ((parse u).title.getD u, e)))).length ≤
      urls.length * MAX_ITEMS_PER_FEED := by
    intro urls
    induction urls with
    | nil => simp
    | cons u urls ih =>
      rw [List.flatMap_cons, List.length_append, List.length_map, List.length_cons]
      have h1 := usedEntries_length_le now (parse u)
      have h15 : MAX_ITEMS_PER_FEED = 15 := rfl
      rw [h15] at h1 ih ⊢
      omega
  exact hgen RSS_FEEDS

/-- C8 counterexample: an entry carrying a 700-character summary
produces exactly the same collected list as the same entry with no
summary at all, and the retained item consists of id, source, title
and link only — no truncated summary is stored anywhere. -/
theorem fetch_news_ignores_summary :
    fetch_news parseJLong 0 = fetch_news parseJNone 0 ∧
    fetch_news parseJLong 0 =
      [{ id := 1, source := "Jewel", title := "Gold up", link := "https://j/1" }] := by
  constructor <;> decide

/-- C8 amended: collected items store no summary, so the result of
`fetch_news` is unchanged when every summary is erased from every
feed; in particular an entry with a title and a link but no summary is
retained exactly like one with a summary. -/
theorem fetch_news_dropSummaries (parse : String → Feed) (now : Int) :
    fetch_news (fun u => Feed.dropSummaries (parse u)) now = fetch_news parse now := by
  have hrecent : ∀ e : RawEntry, is_recent now e.dropSummary = is_recent now e :=
    fun e => rfl
  have husd : ∀ f : Feed,
      usedEntries now f.dropSummaries = (usedEntries now f).map RawEntry.dropSummary := by
    intro f
    show usedEntries now { title := f.title, entries := f.entries.map RawEntry.dropSummary } = _
    rw [usedEntries_eq, usedEntries_eq]
    have htake : (f.entries.map RawEntry.dropSummary).take MAX_ITEMS_PER_FEED =
        (f.entries.take MAX_ITEMS_PER_FEED).map RawEntry.dropSummary :=
      (List.map_take _ _ _).symm
    have hfilter : ((f.entries.take MAX_ITEMS_PER_FEED).map RawEntry.dropSummary).filter
        (is_recent now) =
        ((f.entries.take MAX_ITEMS_PER_FEED).filter (is_recent now)).map
          RawEntry.dropSummary := by
      rw [List.filter_map]
      rfl
    simp only [htake, hfilter]
    by_cases h : (f.entries.take MAX_ITEMS_PER_FEED).filter (is_recent now) = [] <;>
      simp [h]
  have hpf : processFeed (fun u => Feed.dropSummaries (parse u)) now = processFeed parse now := by
    funext st u
    show ((usedEntries now (parse u).dropSummaries).foldl
      (processEntry ((parse u).dropSummaries.title.getD u)) st) = _
    rw [husd, List.foldl_map]
    rfl
  unfold fetch_news
  rw [hpf]

/-- The rendered block of a single item is at least as long as the
item title it embeds. -/
theorem build_headlines_length_ge_title (i : Nat) (src t l : String) :
    t.length ≤
      (build_headlines_text [{ id := i, source := src, title := t, link := l }]).length := by
  simp [build_headlines_text, itemLines, joinNL, String.length_append]
  omega

/-- C9 counterexample: a single item with a 15001-character title makes
`build_headlines_text` return a block longer than 15000 characters, so
no hard cap in the 12000-15000 range (nor any other) is applied. -/
theorem build_headlines_text_exceeds_cap :
    15000 < (build_headlines_text
      [{ id := 1, source := "S", title := String.mk (List.replicate 15001 'a'),
         link := "L" }]).length := by
  have h := build_headlines_length_ge_title 1 "S" (String.mk (List.replicate 15001 'a')) "L"
  have h2 : (String.mk (List.replicate 15001 'a')).length = 15001 := by
    rw [String.length_mk, List.length_replicate]
  rw [h2] at h
  omega

/-- C9 amended: `build_headlines_text` truncates nothing — the block
is the plain concatenation of all item stanzas, and its length exceeds
every bound for a suitable item list. -/
theorem build_headlines_text_unbounded :
    ∀ n : Nat, ∃ items : List NewsItem, n < (build_headlines_text items).length := by
  intro n
  refine ⟨[{ id := 1, source := "S", title := String.mk (List.replicate (n + 1) 'a'),
             link := "L" }], ?_⟩
  have h := build_headlines_length_ge_title 1 "S" (String.mk (List.replicate (n + 1) 'a')) "L"
  have h2 : (String.mk (List.replicate (n + 1) 'a')).length = n + 1 := by
    rw [String.length_mk, List.length_replicate]
  rw [h2] at h
  omega
